import Mathlib

/-!
# Verification of the hivemind backend persistence and auth layer

A shallow embedding of `src/database.py` and `src/app.py`:

* MongoDB documents are association lists of string keys to `Value`s
  (Python dict semantics: updating an existing key keeps its position,
  a new key is appended).
* The database is a record of five collections plus a counter modelling
  the store-assigned `ObjectId`s; `insert_one` appends a document after
  setting its `_id`.
* The filesystem is a list of (path, bytes) pairs; `uuid4().hex` is
  modelled by an explicit string parameter (the generated token).
* bcrypt hashing/verification (passlib) is external, so `add_member`
  and `handle_login` take the hash / verify functions as parameters.
* The session is the record of the only two keys the application ever
  stores in it (`user_email`, `user_name`).

All operations are executable and mirror the Python control flow,
including truthiness tests (`if is_admin:`, `if user_email:`, ...).
-/

set_option autoImplicit false

namespace Hivemind

/-- A MongoDB / Python value as used by this application. -/
inductive Value where
  | str : String → Value
  | oid : Nat → Value
  | time : Nat → Value
  | bool : Bool → Value
  | none : Value
  deriving DecidableEq, Repr

/-- A document / Python dict: ordered association list with unique keys. -/
abbrev Doc := List (String × Value)

/-- `d[k]` lookup, `none` when the key is absent. -/
def docFind : Doc → String → Option Value
  | [], _ => Option.none
  | (k', v) :: rest, k => if k' = k then some v else docFind rest k

/-- `d[k] = v`: update in place if the key exists, else append (dict semantics). -/
def docSet : Doc → String → Value → Doc
  | [], k, v => [(k, v)]
  | (k', v') :: rest, k, v =>
    if k' = k then (k, v) :: rest else (k', v') :: docSet rest k v

/-- `del d[k]` / `d.pop(k, ...)`: remove the key (keys are unique). -/
def docErase : Doc → String → Doc
  | [], _ => []
  | (k', v') :: rest, k => if k' = k then rest else (k', v') :: docErase rest k

/-- `k in d`. -/
def docHasKey (d : Doc) (k : String) : Bool := (docFind d k).isSome

/-- `list(d.keys())`. -/
def docKeys (d : Doc) : List String := d.map Prod.fst

/-- Python truthiness of a `Value`. -/
def Value.truthy : Value → Bool
  | .str s => s != ""
  | .oid _ => true
  | .time _ => true
  | .bool b => b
  | .none => false

/-- Truthiness of `d.get(k)` (missing key gives `None`, which is falsy). -/
def optTruthy : Option Value → Bool
  | Option.none => false
  | some v => v.truthy

/-- `str(v)` for the values this application stringifies (`str(doc["_id"])`). -/
def valueStr : Value → String
  | .str s => s
  | .oid n => toString n
  | .time n => toString n
  | .bool b => if b then "True" else "False"
  | .none => "None"

/-- `member_data.get(k)` materialised into a stored value (`None` when absent). -/
def docGetD (d : Doc) (k : String) : Value := (docFind d k).getD .none

/-! ## os.path.splitext (posixpath semantics) -/

/-- `p.rfind(c)`: index of the last occurrence of `c`, `-1` when absent. -/
def strRfind (cs : List Char) (c : Char) : Int :=
  match cs.reverse.findIdx? (fun x => x == c) with
  | some i => (cs.length : Int) - 1 - i
  | Option.none => -1

/-- `os.path.splitext p`: split off the extension at the last dot of the
basename, provided some earlier character of the basename is not a dot
(so `".bashrc"` has no extension). -/
def splitext (p : String) : String × String :=
  let cs := p.toList
  let sepIndex := strRfind cs '/'
  let dotIndex := strRfind cs '.'
  if sepIndex < dotIndex then
    let start := (sepIndex + 1).toNat
    let stop := dotIndex.toNat
    if ((cs.drop start).take (stop - start)).any (fun c => c != '.') then
      (String.mk (cs.take stop), String.mk (cs.drop stop))
    else (p, "")
  else (p, "")

/-! ## urllib.parse.quote -/

/-- UTF-8 encoding of one code point, as numbers 0..255. -/
def utf8Bytes (c : Char) : List Nat :=
  let n := c.toNat
  if n < 0x80 then [n]
  else if n < 0x800 then
    [0xC0 ||| (n >>> 6), 0x80 ||| (n &&& 0x3F)]
  else if n < 0x10000 then
    [0xE0 ||| (n >>> 12), 0x80 ||| ((n >>> 6) &&& 0x3F), 0x80 ||| (n &&& 0x3F)]
  else
    [0xF0 ||| (n >>> 18), 0x80 ||| ((n >>> 12) &&& 0x3F),
     0x80 ||| ((n >>> 6) &&& 0x3F), 0x80 ||| (n &&& 0x3F)]

/-- The bytes `urllib.parse.quote` never escapes: ASCII letters, digits,
and `_ . - ~`. -/
def alwaysSafeByte (n : Nat) : Bool :=
  (65 ≤ n && n ≤ 90) || (97 ≤ n && n ≤ 122) || (48 ≤ n && n ≤ 57) ||
  n == 95 || n == 46 || n == 45 || n == 126

/-- Uppercase hex digit. -/
def hexUpper (n : Nat) : Char :=
  if n < 10 then Char.ofNat (48 + n) else Char.ofNat (55 + n)

/-- Percent-encode one byte unless it is always-safe or in `safe`. -/
def quoteByte (safe : List Nat) (n : Nat) : String :=
  if alwaysSafeByte n || safe.contains n then String.mk [Char.ofNat n]
  else String.mk ['%', hexUpper (n / 16), hexUpper (n % 16)]

/-- `urllib.parse.quote(s, safe=<safe bytes>)`; the application uses
`safe=""` (`pyQuote []`) and the default `safe="/"` (`pyQuote [47]`). -/
def pyQuote (safe : List Nat) (s : String) : String :=
  String.join (((s.toList.map utf8Bytes).flatten).map (quoteByte safe))

/-- Python `s.startswith(p)`: code-point prefix test. -/
def startswith (s p : String) : Bool := p.toList.isPrefixOf s.toList

/-! ## File store (save_upload_file) -/

/-- An uploaded file: original filename and full byte content. -/
structure UploadFile where
  filename : String
  content : List Nat
  deriving DecidableEq, Repr

/-- The on-disk content directory: a list of (path, bytes) files. -/
structure FS where
  files : List (String × List Nat)
  deriving DecidableEq, Repr

/-- `UPLOAD_DIR` from database.py. -/
def UPLOAD_DIR : String := "uploads"

/-- `save_upload_file(upload_file)`. `gen` is the `uuid4().hex` token
generated during the call. Returns the new filesystem and the
web-accessible path, or `none` when there is no file or the filename is
empty. -/
def save_upload_file (gen : String) (upload_file : Option UploadFile) (fs : FS) :
    FS × Option String :=
  match upload_file with
  | Option.none => (fs, Option.none)
  | some f =>
    if f.filename = "" then (fs, Option.none)
    else
      let file_extension := (splitext f.filename).2
      let unique_filename := gen ++ file_extension
      let file_path := UPLOAD_DIR ++ "/" ++ unique_filename
      (⟨fs.files ++ [(file_path, f.content)]⟩,
       some ("/" ++ UPLOAD_DIR ++ "/" ++ unique_filename))

/-! ## Persistence layer -/

/-- `mongo_id_serializer(doc)`: replace the internal `_id` by a public
string `id`. -/
def mongo_id_serializer (doc : Doc) : Doc :=
  match docFind doc "_id" with
  | some v => docErase (docSet doc "id" (.str (valueStr v))) "_id"
  | Option.none => doc

/-- The five collections plus the store's id counter. -/
structure DB where
  projects : List Doc
  members : List Doc
  gallery : List Doc
  blogs : List Doc
  users : List Doc
  nextId : Nat
  deriving DecidableEq, Repr

/-- Database plus content directory. -/
structure World where
  db : DB
  fs : FS
  deriving DecidableEq, Repr

/-- `collection.insert_one(d)`: the store assigns `_id` and appends. -/
def insertWithId (docs : List Doc) (d : Doc) (oid : Nat) : List Doc :=
  docs ++ [docSet d "_id" (.oid oid)]

/-- `users_collection.find_one({"email": email})` followed by
serialization, for an arbitrary filter value (as `add_member` passes the
raw dict value). -/
def get_user_by_email_v (users : List Doc) (email : Value) : Option Doc :=
  match users.find? (fun u => docFind u "email" == some email) with
  | some u => some (mongo_id_serializer u)
  | Option.none => Option.none

/-- `get_user_by_email(email)`. -/
def get_user_by_email (users : List Doc) (email : String) : Option Doc :=
  get_user_by_email_v users (.str email)

/-- `get_all_projects()`. -/
def get_all_projects (db : DB) : List Doc := db.projects.map mongo_id_serializer

/-- `get_all_members()`. -/
def get_all_members (db : DB) : List Doc := db.members.map mongo_id_serializer

/-- `get_all_users()`. -/
def get_all_users (db : DB) : List Doc := db.users.map mongo_id_serializer

/-- `get_all_gallery_items()`. -/
def get_all_gallery_items (db : DB) : List Doc := db.gallery.map mongo_id_serializer

/-- `get_all_blogs()`. -/
def get_all_blogs (db : DB) : List Doc := db.blogs.map mongo_id_serializer

/-- Result dict `{"status": ..., "message": ...}` of the add operations. -/
structure AddResult where
  status : String
  message : String
  deriving DecidableEq, Repr

/-- `if image_url: data["imageUrl"] = image_url` (string truthiness). -/
def setUrlIfTruthy (d : Doc) (key : String) : Option String → Doc
  | some u => if u = "" then d else docSet d key (.str u)
  | Option.none => d

/-- `add_project(project_data, image_file)`; `now` is `datetime.utcnow()`
and `gen` the uuid token for the (at most one) file save. -/
def add_project (now : Nat) (gen : String) (project_data : Doc)
    (image_file : Option UploadFile) (w : World) : World × AddResult :=
  let fs1 := (save_upload_file gen image_file w.fs).1
  let image_url := (save_upload_file gen image_file w.fs).2
  let pd := setUrlIfTruthy project_data "imageUrl" image_url
  let pd := docSet pd "createdAt" (.time now)
  (⟨{ w.db with
      projects := insertWithId w.db.projects pd w.db.nextId
      nextId := w.db.nextId + 1 }, fs1⟩,
   ⟨"success", "Project added successfully"⟩)

/-- `add_gallery_item(gallery_data, image_file)`. -/
def add_gallery_item (now : Nat) (gen : String) (gallery_data : Doc)
    (image_file : Option UploadFile) (w : World) : World × AddResult :=
  let fs1 := (save_upload_file gen image_file w.fs).1
  let image_url := (save_upload_file gen image_file w.fs).2
  let gd := setUrlIfTruthy gallery_data "imageUrl" image_url
  let gd := docSet gd "createdAt" (.time now)
  (⟨{ w.db with
      gallery := insertWithId w.db.gallery gd w.db.nextId
      nextId := w.db.nextId + 1 }, fs1⟩,
   ⟨"success", "Gallery item added successfully"⟩)

/-- `add_blog(blog_data, image_file)`. -/
def add_blog (now : Nat) (gen : String) (blog_data : Doc)
    (image_file : Option UploadFile) (w : World) : World × AddResult :=
  let fs1 := (save_upload_file gen image_file w.fs).1
  let image_url := (save_upload_file gen image_file w.fs).2
  let bd := setUrlIfTruthy blog_data "imageUrl" image_url
  let bd := docSet bd "createdAt" (.time now)
  (⟨{ w.db with
      blogs := insertWithId w.db.blogs bd w.db.nextId
      nextId := w.db.nextId + 1 }, fs1⟩,
   ⟨"success", "Blog post added successfully"⟩)

/-- The result of `save_upload_file` stored into a dict slot
(`member_doc["photoUrl"] = await save_upload_file(...)`): `None` when the
save returned no path. -/
def optUrl : Option String → Value
  | some s => .str s
  | Option.none => .none

/-- The member document of database.py lines 156–163. -/
def member_core_doc (md : Doc) (now : Nat) : Doc :=
  [("name", docGetD md "name"),
   ("role", docGetD md "role"),
   ("linkedin", docGetD md "linkedin"),
   ("github", docGetD md "github"),
   ("email", docGetD md "email"),
   ("createdAt", .time now)]

/-- `if file: d[key] = await save_upload_file(file)` — the guarded
assignment of database.py lines 165–168 (note: the slot is assigned even
when `save_upload_file` returns `None`). -/
def attach_optional_file (key : String) (gen : String) (file : Option UploadFile)
    (d : Doc) (fs : FS) : FS × Doc :=
  match file with
  | Option.none => (fs, d)
  | some _ =>
    ((save_upload_file gen file fs).1,
     docSet d key (optUrl (save_upload_file gen file fs).2))

/-- The member document and filesystem after the optional photo/resume
saves of `add_member` (database.py lines 156–168), factored out so the
stored member document can be named in specifications. -/
def member_doc_and_fs (now : Nat) (gp gr : String) (member_data : Doc)
    (pf rf : Option UploadFile) (fs : FS) : FS × Doc :=
  let member_doc := member_core_doc (docErase member_data "isAdmin") now
  let fs1 := (attach_optional_file "photoUrl" gp pf member_doc fs).1
  let d1 := (attach_optional_file "photoUrl" gp pf member_doc fs).2
  ((attach_optional_file "resumeUrl" gr rf d1 fs1).1,
   (attach_optional_file "resumeUrl" gr rf d1 fs1).2)

/-- The companion User document of database.py lines 188–193. -/
def admin_user_doc (hasher : Value → String) (now : Nat) (md : Doc) : Doc :=
  [("name", (docFind md "name").getD .none),
   ("email", (docFind md "email").getD .none),
   ("password", .str (hasher ((docFind md "password").getD .none))),
   ("createdAt", .time now)]

/-- `add_member(member_data, photo_file, resume_file)`. `hasher` models
`get_password_hash` (passlib bcrypt), `now` is `datetime.utcnow()`, and
`gp`/`gr` are the uuid tokens for the photo and resume saves. -/
def add_member (hasher : Value → String) (now : Nat) (gp gr : String)
    (member_data : Doc) (photo_file resume_file : Option UploadFile)
    (w : World) : World × AddResult :=
  let is_admin := (docFind member_data "isAdmin").getD (.bool false)
  let md := docErase member_data "isAdmin"
  let name := docFind md "name"
  let email := docFind md "email"
  let password := docFind md "password"
  let member_doc := member_core_doc md now
  let fs1 := (attach_optional_file "photoUrl" gp photo_file member_doc w.fs).1
  let member_doc1 := (attach_optional_file "photoUrl" gp photo_file member_doc w.fs).2
  let fs2 := (attach_optional_file "resumeUrl" gr resume_file member_doc1 fs1).1
  let member_doc2 := (attach_optional_file "resumeUrl" gr resume_file member_doc1 fs1).2
  let db1 := { w.db with
    members := insertWithId w.db.members member_doc2 w.db.nextId
    nextId := w.db.nextId + 1 }
  if is_admin.truthy then
    if !(optTruthy name && optTruthy email && optTruthy password) then
      (⟨db1, fs2⟩, ⟨"error", "Admin user requires a name, email, and password."⟩)
    else
      match get_user_by_email_v db1.users (email.getD .none) with
      | some _ => (⟨db1, fs2⟩, ⟨"error", "A user with this email already exists."⟩)
      | Option.none =>
        let user_doc := admin_user_doc hasher now md
        let db2 := { db1 with
          users := insertWithId db1.users user_doc db1.nextId
          nextId := db1.nextId + 1 }
        (⟨db2, fs2⟩, ⟨"success", "Admin member and user created successfully"⟩)
  else
    (⟨db1, fs2⟩, ⟨"success", "Member added successfully"⟩)

/-! ## Session / auth gate (app.py) -/

/-- The session dict, holding the only two keys the application ever
writes (`request.session["user_email"]`, `request.session["user_name"]`);
a missing key is `none`. -/
structure Session where
  user_email : Option Value := Option.none
  user_name : Option Value := Option.none
  deriving DecidableEq, Repr

/-- `session.clear()` empties the session. -/
def Session.clear (_s : Session) : Session := {}

/-- `get_current_user(request)`: read `user_email` from the session
(truthiness test), then look the user up by that email. -/
def get_current_user (sess : Session) (users : List Doc) : Option Doc :=
  match sess.user_email with
  | some v => if v.truthy then get_user_by_email_v users v else Option.none
  | Option.none => Option.none

/-- Outcome of `require_login`: either the resolved user, or the raised
`HTTPException(status, Location)` redirect. -/
inductive AuthOutcome where
  | ok : Doc → AuthOutcome
  | httpRedirect : Nat → String → AuthOutcome
  deriving DecidableEq, Repr

/-- `require_login(request)`: `requestUrl` is `str(request.url)`. -/
def require_login (requestUrl : String) (sess : Session) (users : List Doc) :
    AuthOutcome :=
  match get_current_user sess users with
  | some user => .ok user
  | Option.none =>
    .httpRedirect 307 ("/login?next=" ++ pyQuote [] requestUrl)

/-- A `RedirectResponse(url, status_code)`. -/
structure Response where
  status_code : Nat
  location : String
  deriving DecidableEq, Repr

/-- `handle_login(request, email, password, next_url)`. `verify` models
`database.verify_password` (passlib bcrypt verification of the plaintext
against the stored digest). Returns the session after the request and
the redirect response. -/
def handle_login (verify : Value → Value → Bool)
    (email password next_url : String)
    (sess : Session) (users : List Doc) : Session × Response :=
  match get_user_by_email users email with
  | Option.none => (sess, ⟨303, "/login?error=1"⟩)
  | some user =>
    if verify (.str password) ((docFind user "password").getD .none) then
      let sess' : Session :=
        { sess with
          user_email := some ((docFind user "email").getD .none)
          user_name := some ((docFind user "name").getD .none) }
      if next_url != "" && startswith next_url "/" then
        (sess', ⟨303, next_url⟩)
      else
        (sess', ⟨303, "/add-project"⟩)
    else
      let error_redirect_url := "/login?error=1"
      let error_redirect_url :=
        if next_url != "" && startswith next_url "/" then
          error_redirect_url ++ "&next=" ++ pyQuote [47] next_url
        else error_redirect_url
      (sess, ⟨303, error_redirect_url⟩)

/-- `handle_logout(request)`: clear the session, redirect home. -/
def handle_logout (sess : Session) : Session × Response :=
  (sess.clear, ⟨303, "/"⟩)

/-! ## Association-list (dict) lemmas -/

theorem docFind_docErase (d : Doc) (k k' : String) (h : k' ≠ k) :
    docFind (docErase d k') k = docFind d k := by
  induction d with
  | nil => rfl
  | cons p rest ih =>
    obtain ⟨a, b⟩ := p
    simp only [docErase, docFind]
    by_cases ha : a = k'
    · rw [if_pos ha, if_neg (fun e => h (ha.symm.trans e))]
    · rw [if_neg ha]
      simp only [docFind, ih]

theorem docFind_docSet_self (d : Doc) (k : String) (v : Value) :
    docFind (docSet d k v) k = some v := by
  induction d with
  | nil => simp [docSet, docFind]
  | cons p rest ih =>
    obtain ⟨a, b⟩ := p
    simp only [docSet]
    by_cases ha : a = k
    · rw [if_pos ha]; simp [docFind]
    · rw [if_neg ha]
      simp only [docFind, if_neg ha, ih]

theorem docFind_docSet_ne (d : Doc) (k k' : String) (v : Value) (h : k' ≠ k) :
    docFind (docSet d k' v) k = docFind d k := by
  induction d with
  | nil => simp [docSet, docFind, h]
  | cons p rest ih =>
    obtain ⟨a, b⟩ := p
    simp only [docSet]
    by_cases ha : a = k'
    · rw [if_pos ha]
      simp only [docFind, if_neg h]
      rw [ha]
      by_cases hk : k' = k
      · exact absurd hk h
      · rw [if_neg hk]
    · rw [if_neg ha]
      simp only [docFind, ih]

theorem docFind_eq_none_of_not_mem (d : Doc) (k : String) (h : k ∉ docKeys d) :
    docFind d k = Option.none := by
  induction d with
  | nil => rfl
  | cons p rest ih =>
    obtain ⟨a, b⟩ := p
    simp only [docKeys, List.map_cons, List.mem_cons, not_or] at h
    simp only [docFind, if_neg (fun e : a = k => h.1 e.symm)]
    exact ih h.2

theorem docFind_docErase_self (d : Doc) (k : String) (h : (docKeys d).Nodup) :
    docFind (docErase d k) k = Option.none := by
  induction d with
  | nil => rfl
  | cons p rest ih =>
    obtain ⟨a, b⟩ := p
    simp only [docKeys, List.map_cons, List.nodup_cons] at h
    simp only [docErase]
    by_cases ha : a = k
    · rw [if_pos ha]
      exact docFind_eq_none_of_not_mem rest k (ha ▸ h.1)
    · rw [if_neg ha]
      simp only [docFind, if_neg ha]
      exact ih h.2

theorem mem_docKeys_docSet (d : Doc) (k k' : String) (v : Value)
    (h : k' ∈ docKeys (docSet d k v)) : k' ∈ docKeys d ∨ k' = k := by
  induction d with
  | nil =>
    simp only [docSet, docKeys, List.map_cons, List.map_nil, List.mem_singleton] at h
    exact Or.inr h
  | cons p rest ih =>
    obtain ⟨a, b⟩ := p
    simp only [docSet] at h
    by_cases ha : a = k
    · rw [if_pos ha] at h
      simp only [docKeys, List.map_cons, List.mem_cons] at h ⊢
      rcases h with h | h
      · exact Or.inr h
      · exact Or.inl (Or.inr h)
    · rw [if_neg ha] at h
      simp only [docKeys, List.map_cons, List.mem_cons] at h ⊢
      rcases h with h | h
      · exact Or.inl (Or.inl h)
      · rcases ih h with h' | h'
        · exact Or.inl (Or.inr h')
        · exact Or.inr h'

theorem docKeys_docSet_nodup (d : Doc) (k : String) (v : Value)
    (h : (docKeys d).Nodup) : (docKeys (docSet d k v)).Nodup := by
  induction d with
  | nil => simp [docSet, docKeys]
  | cons p rest ih =>
    obtain ⟨a, b⟩ := p
    simp only [docKeys, List.map_cons, List.nodup_cons] at h
    simp only [docSet]
    by_cases ha : a = k
    · rw [if_pos ha]
      simp only [docKeys, List.map_cons, List.nodup_cons]
      exact ⟨ha ▸ h.1, h.2⟩
    · rw [if_neg ha]
      simp only [docKeys, List.map_cons, List.nodup_cons]
      refine ⟨fun hmem => ?_, ih h.2⟩
      rcases mem_docKeys_docSet rest k a v hmem with h' | h'
      · exact h.1 h'
      · exact ha h'

/-! ## Characterizations of the add_member branches -/

theorem add_member_not_admin_eq (hasher : Value → String) (now : Nat) (gp gr : String)
    (member_data : Doc) (pf rf : Option UploadFile) (w : World)
    (hA : ((docFind member_data "isAdmin").getD (.bool false)).truthy = false) :
    add_member hasher now gp gr member_data pf rf w =
      (⟨{ w.db with
          members := insertWithId w.db.members
            (member_doc_and_fs now gp gr member_data pf rf w.fs).2 w.db.nextId
          nextId := w.db.nextId + 1 },
        (member_doc_and_fs now gp gr member_data pf rf w.fs).1⟩,
       ⟨"success", "Member added successfully"⟩) := by
  simp [add_member, member_doc_and_fs, hA]

theorem add_member_missing_fields_eq (hasher : Value → String) (now : Nat)
    (gp gr : String) (member_data : Doc) (pf rf : Option UploadFile) (w : World)
    (hA : ((docFind member_data "isAdmin").getD (.bool false)).truthy = true)
    (hM : (optTruthy (docFind (docErase member_data "isAdmin") "name") &&
           optTruthy (docFind (docErase member_data "isAdmin") "email") &&
           optTruthy (docFind (docErase member_data "isAdmin") "password")) = false) :
    add_member hasher now gp gr member_data pf rf w =
      (⟨{ w.db with
          members := insertWithId w.db.members
            (member_doc_and_fs now gp gr member_data pf rf w.fs).2 w.db.nextId
          nextId := w.db.nextId + 1 },
        (member_doc_and_fs now gp gr member_data pf rf w.fs).1⟩,
       ⟨"error", "Admin user requires a name, email, and password."⟩) := by
  simp [add_member, member_doc_and_fs, hA, hM]

theorem add_member_duplicate_eq (hasher : Value → String) (now : Nat)
    (gp gr : String) (member_data : Doc) (pf rf : Option UploadFile) (w : World)
    (u : Doc)
    (hA : ((docFind member_data "isAdmin").getD (.bool false)).truthy = true)
    (hAll : (optTruthy (docFind (docErase member_data "isAdmin") "name") &&
             optTruthy (docFind (docErase member_data "isAdmin") "email") &&
             optTruthy (docFind (docErase member_data "isAdmin") "password")) = true)
    (hDup : get_user_by_email_v w.db.users
      ((docFind (docErase member_data "isAdmin") "email").getD .none) = some u) :
    add_member hasher now gp gr member_data pf rf w =
      (⟨{ w.db with
          members := insertWithId w.db.members
            (member_doc_and_fs now gp gr member_data pf rf w.fs).2 w.db.nextId
          nextId := w.db.nextId + 1 },
        (member_doc_and_fs now gp gr member_data pf rf w.fs).1⟩,
       ⟨"error", "A user with this email already exists."⟩) := by
  simp [add_member, member_doc_and_fs, hA, hAll, hDup]

theorem add_member_new_admin_eq (hasher : Value → String) (now : Nat)
    (gp gr : String) (member_data : Doc) (pf rf : Option UploadFile) (w : World)
    (hA : ((docFind member_data "isAdmin").getD (.bool false)).truthy = true)
    (hAll : (optTruthy (docFind (docErase member_data "isAdmin") "name") &&
             optTruthy (docFind (docErase member_data "isAdmin") "email") &&
             optTruthy (docFind (docErase member_data "isAdmin") "password")) = true)
    (hFresh : get_user_by_email_v w.db.users
      ((docFind (docErase member_data "isAdmin") "email").getD .none) = Option.none) :
    add_member hasher now gp gr member_data pf rf w =
      (⟨{ w.db with
          members := insertWithId w.db.members
            (member_doc_and_fs now gp gr member_data pf rf w.fs).2 w.db.nextId
          users := insertWithId w.db.users
            (admin_user_doc hasher now (docErase member_data "isAdmin"))
            (w.db.nextId + 1)
          nextId := w.db.nextId + 1 + 1 },
        (member_doc_and_fs now gp gr member_data pf rf w.fs).1⟩,
       ⟨"success", "Admin member and user created successfully"⟩) := by
  simp [add_member, member_doc_and_fs, hA, hAll, hFresh]

theorem add_member_members_eq (hasher : Value → String) (now : Nat)
    (gp gr : String) (member_data : Doc) (pf rf : Option UploadFile) (w : World) :
    (add_member hasher now gp gr member_data pf rf w).1.db.members =
      insertWithId w.db.members
        (member_doc_and_fs now gp gr member_data pf rf w.fs).2 w.db.nextId := by
  simp only [add_member, member_doc_and_fs]
  split
  · split
    · rfl
    · split
      · rfl
      · rfl
  · rfl

theorem add_member_users_cases (hasher : Value → String) (now : Nat)
    (gp gr : String) (member_data : Doc) (pf rf : Option UploadFile) (w : World) :
    (add_member hasher now gp gr member_data pf rf w).1.db.users = w.db.users ∨
    (add_member hasher now gp gr member_data pf rf w).1.db.users =
      insertWithId w.db.users
        (admin_user_doc hasher now (docErase member_data "isAdmin"))
        (w.db.nextId + 1) := by
  simp only [add_member]
  split
  · split
    · exact Or.inl rfl
    · split
      · exact Or.inl rfl
      · exact Or.inr rfl
  · exact Or.inl rfl

theorem docKeys_docSet_subset (d : Doc) (k0 : String) (v : Value) (L : List String)
    (hd : ∀ k ∈ docKeys d, k ∈ L) (hk0 : k0 ∈ L) :
    ∀ k ∈ docKeys (docSet d k0 v), k ∈ L := by
  intro k hk
  rcases mem_docKeys_docSet d k0 k v hk with h | h
  · exact hd k h
  · exact h ▸ hk0

theorem member_core_doc_find_password (md : Doc) (now : Nat) :
    docFind (member_core_doc md now) "password" = Option.none := rfl

theorem member_core_doc_find_isAdmin (md : Doc) (now : Nat) :
    docFind (member_core_doc md now) "isAdmin" = Option.none := rfl

theorem member_doc_and_fs_find_ne (now : Nat) (gp gr : String) (md : Doc)
    (pf rf : Option UploadFile) (fs : FS) (k : String)
    (h1 : k ≠ "photoUrl") (h2 : k ≠ "resumeUrl") :
    docFind (member_doc_and_fs now gp gr md pf rf fs).2 k =
      docFind (member_core_doc (docErase md "isAdmin") now) k := by
  have e1 : ∀ (d : Doc) (v : Value), docFind (docSet d "photoUrl" v) k = docFind d k :=
    fun d v => docFind_docSet_ne d k "photoUrl" v (Ne.symm h1)
  have e2 : ∀ (d : Doc) (v : Value), docFind (docSet d "resumeUrl" v) k = docFind d k :=
    fun d v => docFind_docSet_ne d k "resumeUrl" v (Ne.symm h2)
  cases pf <;> cases rf <;>
    simp [member_doc_and_fs, attach_optional_file, e1, e2]

theorem member_doc_and_fs_keys (now : Nat) (gp gr : String) (md : Doc)
    (pf rf : Option UploadFile) (fs : FS) :
    ∀ k ∈ docKeys (member_doc_and_fs now gp gr md pf rf fs).2,
      k ∈ ["name", "role", "linkedin", "github", "email", "createdAt",
           "photoUrl", "resumeUrl"] := by
  have base : ∀ k ∈ docKeys (member_core_doc (docErase md "isAdmin") now),
      k ∈ ["name", "role", "linkedin", "github", "email", "createdAt",
           "photoUrl", "resumeUrl"] := by
    intro k h
    simp only [member_core_doc, docKeys, List.map_cons, List.map_nil,
      List.mem_cons, List.not_mem_nil, or_false] at h
    simp only [List.mem_cons, List.not_mem_nil, or_false]
    tauto
  cases pf <;> cases rf <;>
    simp only [member_doc_and_fs, attach_optional_file]
  · exact base
  · exact docKeys_docSet_subset _ "resumeUrl" _ _ base (by decide)
  · exact docKeys_docSet_subset _ "photoUrl" _ _ base (by decide)
  · exact docKeys_docSet_subset _ "resumeUrl" _ _
      (docKeys_docSet_subset _ "photoUrl" _ _ base (by decide)) (by decide)

theorem append_ne_empty_left (a b : String) (ha : a ≠ "") : a ++ b ≠ "" := by
  intro h
  apply ha
  have hd := congrArg String.data h
  rw [String.data_append] at hd
  have hnil : String.data "" = [] := by decide
  rw [hnil] at hd
  have h2 : a.data = [] := (List.append_eq_nil.mp hd).1
  exact String.ext (h2.trans hnil.symm)

theorem upload_url_ne_empty (s : String) :
    "/" ++ UPLOAD_DIR ++ "/" ++ s ≠ "" :=
  append_ne_empty_left _ s (append_ne_empty_left _ "/"
    (append_ne_empty_left "/" UPLOAD_DIR (by decide)))

theorem startswith_append (p s : String) : startswith (p ++ s) p = true := by
  apply List.isPrefixOf_iff_prefix.mpr
  show p.toList <+: (p ++ s).toList
  have h : (p ++ s).toList = p.toList ++ s.toList := String.data_append p s
  rw [h]
  exact List.prefix_append _ _

theorem add_project_projects_eq (now : Nat) (gen : String) (data : Doc)
    (file : Option UploadFile) (w : World) :
    (add_project now gen data file w).1.db.projects =
      w.db.projects ++ [docSet (docSet (setUrlIfTruthy data "imageUrl"
        (save_upload_file gen file w.fs).2) "createdAt" (.time now)) "_id"
        (.oid w.db.nextId)] := rfl

theorem add_gallery_item_gallery_eq (now : Nat) (gen : String) (data : Doc)
    (file : Option UploadFile) (w : World) :
    (add_gallery_item now gen data file w).1.db.gallery =
      w.db.gallery ++ [docSet (docSet (setUrlIfTruthy data "imageUrl"
        (save_upload_file gen file w.fs).2) "createdAt" (.time now)) "_id"
        (.oid w.db.nextId)] := rfl

theorem add_blog_blogs_eq (now : Nat) (gen : String) (data : Doc)
    (file : Option UploadFile) (w : World) :
    (add_blog now gen data file w).1.db.blogs =
      w.db.blogs ++ [docSet (docSet (setUrlIfTruthy data "imageUrl"
        (save_upload_file gen file w.fs).2) "createdAt" (.time now)) "_id"
        (.oid w.db.nextId)] := rfl

theorem content_doc_imageUrl (data : Doc) (now oid : Nat) (u : Option String)
    (hd : docFind data "imageUrl" = Option.none) :
    docFind (docSet (docSet (setUrlIfTruthy data "imageUrl" u) "createdAt"
      (.time now)) "_id" (.oid oid)) "imageUrl" =
      match u with
      | Option.none => Option.none
      | some s => if s = "" then Option.none else some (.str s) := by
  rw [docFind_docSet_ne _ _ _ _ (by decide), docFind_docSet_ne _ _ _ _ (by decide)]
  cases u with
  | none => simpa [setUrlIfTruthy] using hd
  | some s =>
    by_cases hs : s = ""
    · simp only [setUrlIfTruthy, hs, if_true, if_pos rfl]
      simpa [hs] using hd
    · simp only [setUrlIfTruthy, if_neg hs]
      first
      | rfl
      | rw [docFind_docSet_self]

theorem save_upload_file_path_none (gen : String) (f : UploadFile) (fs : FS)
    (hf : f.filename = "") :
    (save_upload_file gen (some f) fs).2 = Option.none := by
  simp [save_upload_file, hf]

theorem save_upload_file_path_some (gen : String) (f : UploadFile) (fs : FS)
    (hf : f.filename ≠ "") :
    (save_upload_file gen (some f) fs).2 =
      some ("/" ++ UPLOAD_DIR ++ "/" ++ (gen ++ (splitext f.filename).2)) := by
  simp [save_upload_file, hf]

theorem member_doc_photoUrl_no_file (now : Nat) (gp gr : String) (md : Doc)
    (rf : Option UploadFile) (fs : FS) :
    docFind (member_doc_and_fs now gp gr md Option.none rf fs).2 "photoUrl" =
      Option.none := by
  cases rf <;> rfl

theorem member_doc_photoUrl_file (now : Nat) (gp gr : String) (md : Doc)
    (f : UploadFile) (rf : Option UploadFile) (fs : FS) :
    docFind (member_doc_and_fs now gp gr md (some f) rf fs).2 "photoUrl" =
      some (optUrl (save_upload_file gp (some f) fs).2) := by
  cases rf <;> rfl

theorem member_doc_resumeUrl_no_file (now : Nat) (gp gr : String) (md : Doc)
    (pf : Option UploadFile) (fs : FS) :
    docFind (member_doc_and_fs now gp gr md pf Option.none fs).2 "resumeUrl" =
      Option.none := by
  cases pf <;> rfl

theorem member_doc_resumeUrl_file (now : Nat) (gp gr : String) (md : Doc)
    (pf : Option UploadFile) (f : UploadFile) (fs : FS) :
    docFind (member_doc_and_fs now gp gr md pf (some f) fs).2 "resumeUrl" =
      some (optUrl (save_upload_file gr (some f)
        (attach_optional_file "photoUrl" gp pf
          (member_core_doc (docErase md "isAdmin") now) fs).1).2) := by
  cases pf <;> rfl

theorem mongo_id_serializer_spec (d : Doc) (v : Value)
    (hid : docFind d "_id" = some v) (hnd : (docKeys d).Nodup) :
    docFind (mongo_id_serializer d) "_id" = Option.none ∧
    docFind (mongo_id_serializer d) "id" = some (.str (valueStr v)) := by
  constructor
  · simp only [mongo_id_serializer, hid]
    exact docFind_docErase_self _ "_id" (docKeys_docSet_nodup d "id" _ hnd)
  · simp only [mongo_id_serializer, hid]
    rw [docFind_docErase _ _ _ (by decide)]
    exact docFind_docSet_self d "id" _

theorem serialized_list_ids (l : List Doc)
    (h : ∀ d ∈ l, (∃ v, docFind d "_id" = some v) ∧ (docKeys d).Nodup) :
    ∀ d' ∈ l.map mongo_id_serializer,
      docFind d' "_id" = Option.none ∧ ∃ s, docFind d' "id" = some (.str s) := by
  intro d' hd'
  rcases List.mem_map.mp hd' with ⟨d, hd, rfl⟩
  rcases h d hd with ⟨⟨v, hv⟩, hnd⟩
  rcases mongo_id_serializer_spec d v hv hnd with ⟨h1, h2⟩
  exact ⟨h1, valueStr v, h2⟩

theorem setUrlIfTruthy_nodup (d : Doc) (key : String) (u : Option String)
    (h : (docKeys d).Nodup) : (docKeys (setUrlIfTruthy d key u)).Nodup := by
  cases u with
  | none => exact h
  | some s =>
    by_cases hs : s = ""
    · simpa [setUrlIfTruthy, hs] using h
    · simpa [setUrlIfTruthy, hs] using docKeys_docSet_nodup d key (.str s) h

/-! ## Claim theorems -/

/-- C1: an `add_member` call with the admin flag set, truthy name, email
and password, where a User with that email already exists, returns the
duplicate-email error result, inserts no second User document (the users
collection is unchanged), and the Member document inserted in step 1
still persists (the members collection grows by exactly that one
document). -/
theorem add_member_duplicate_email_is_error (hasher : Value → String) (now : Nat)
    (gp gr : String) (member_data : Doc) (pf rf : Option UploadFile) (w : World)
    (u : Doc)
    (hA : ((docFind member_data "isAdmin").getD (.bool false)).truthy = true)
    (hName : optTruthy (docFind member_data "name") = true)
    (hEmail : optTruthy (docFind member_data "email") = true)
    (hPass : optTruthy (docFind member_data "password") = true)
    (hDup : get_user_by_email_v w.db.users
      ((docFind member_data "email").getD .none) = some u) :
    (add_member hasher now gp gr member_data pf rf w).2 =
      ⟨"error", "A user with this email already exists."⟩ ∧
    (add_member hasher now gp gr member_data pf rf w).1.db.users = w.db.users ∧
    ∃ m, (add_member hasher now gp gr member_data pf rf w).1.db.members =
      w.db.members ++ [m] := by
  have hn := docFind_docErase member_data "name" "isAdmin" (by decide)
  have he := docFind_docErase member_data "email" "isAdmin" (by decide)
  have hp := docFind_docErase member_data "password" "isAdmin" (by decide)
  have hAll : (optTruthy (docFind (docErase member_data "isAdmin") "name") &&
      optTruthy (docFind (docErase member_data "isAdmin") "email") &&
      optTruthy (docFind (docErase member_data "isAdmin") "password")) = true := by
    rw [hn, he, hp, hName, hEmail, hPass]; rfl
  have hDup' : get_user_by_email_v w.db.users
      ((docFind (docErase member_data "isAdmin") "email").getD .none) = some u := by
    rw [he]; exact hDup
  have hEq := add_member_duplicate_eq hasher now gp gr member_data pf rf w u hA hAll hDup'
  rw [hEq]
  exact ⟨rfl, rfl, ⟨_, rfl⟩⟩

/-- Witness for C1: concrete duplicate-email admin member creation. -/
theorem add_member_duplicate_email_is_error_w :
    (add_member (fun _ => "HASH") 5 "g1" "g2"
      [("name", Value.str "Alice"), ("role", Value.str "lead"),
       ("linkedin", Value.str "l"), ("github", Value.str "g"),
       ("email", Value.str "a@b.c"), ("password", Value.str "pw"),
       ("isAdmin", Value.bool true)]
      Option.none Option.none
      ⟨⟨[], [], [], [], [[("name", Value.str "Bob"), ("email", Value.str "a@b.c"),
        ("password", Value.str "H")]], 3⟩, ⟨[]⟩⟩).2 =
      ⟨"error", "A user with this email already exists."⟩ ∧
    (add_member (fun _ => "HASH") 5 "g1" "g2"
      [("name", Value.str "Alice"), ("role", Value.str "lead"),
       ("linkedin", Value.str "l"), ("github", Value.str "g"),
       ("email", Value.str "a@b.c"), ("password", Value.str "pw"),
       ("isAdmin", Value.bool true)]
      Option.none Option.none
      ⟨⟨[], [], [], [], [[("name", Value.str "Bob"), ("email", Value.str "a@b.c"),
        ("password", Value.str "H")]], 3⟩, ⟨[]⟩⟩).1.db.users =
      [[("name", Value.str "Bob"), ("email", Value.str "a@b.c"),
        ("password", Value.str "H")]] ∧
    ∃ m, (add_member (fun _ => "HASH") 5 "g1" "g2"
      [("name", Value.str "Alice"), ("role", Value.str "lead"),
       ("linkedin", Value.str "l"), ("github", Value.str "g"),
       ("email", Value.str "a@b.c"), ("password", Value.str "pw"),
       ("isAdmin", Value.bool true)]
      Option.none Option.none
      ⟨⟨[], [], [], [], [[("name", Value.str "Bob"), ("email", Value.str "a@b.c"),
        ("password", Value.str "H")]], 3⟩, ⟨[]⟩⟩).1.db.members = [] ++ [m] :=
  add_member_duplicate_email_is_error (fun _ => "HASH") 5 "g1" "g2"
    [("name", Value.str "Alice"), ("role", Value.str "lead"),
     ("linkedin", Value.str "l"), ("github", Value.str "g"),
     ("email", Value.str "a@b.c"), ("password", Value.str "pw"),
     ("isAdmin", Value.bool true)]
    Option.none Option.none
    ⟨⟨[], [], [], [], [[("name", Value.str "Bob"), ("email", Value.str "a@b.c"),
      ("password", Value.str "H")]], 3⟩, ⟨[]⟩⟩
    [("name", Value.str "Bob"), ("email", Value.str "a@b.c"),
     ("password", Value.str "H")]
    (by decide) (by decide) (by decide) (by decide) (by decide)

/-- C2: an `add_member` call with the admin flag set and name, email or
password missing/empty returns the missing-fields error result, inserts
no User document, keeps the Member document inserted in step 1 (no
rollback), and never hashes the password: the entire outcome is
independent of the hashing function. -/
theorem add_member_missing_admin_fields_is_error (hasher hasher2 : Value → String)
    (now : Nat) (gp gr : String) (member_data : Doc) (pf rf : Option UploadFile)
    (w : World)
    (hA : ((docFind member_data "isAdmin").getD (.bool false)).truthy = true)
    (hM : (optTruthy (docFind member_data "name") &&
           optTruthy (docFind member_data "email") &&
           optTruthy (docFind member_data "password")) = false) :
    (add_member hasher now gp gr member_data pf rf w).2 =
      ⟨"error", "Admin user requires a name, email, and password."⟩ ∧
    (add_member hasher now gp gr member_data pf rf w).1.db.users = w.db.users ∧
    (∃ m, (add_member hasher now gp gr member_data pf rf w).1.db.members =
      w.db.members ++ [m]) ∧
    add_member hasher now gp gr member_data pf rf w =
      add_member hasher2 now gp gr member_data pf rf w := by
  have hn := docFind_docErase member_data "name" "isAdmin" (by decide)
  have he := docFind_docErase member_data "email" "isAdmin" (by decide)
  have hp := docFind_docErase member_data "password" "isAdmin" (by decide)
  have hM' : (optTruthy (docFind (docErase member_data "isAdmin") "name") &&
      optTruthy (docFind (docErase member_data "isAdmin") "email") &&
      optTruthy (docFind (docErase member_data "isAdmin") "password")) = false := by
    rw [hn, he, hp]; exact hM
  have h1 := add_member_missing_fields_eq hasher now gp gr member_data pf rf w hA hM'
  have h2 := add_member_missing_fields_eq hasher2 now gp gr member_data pf rf w hA hM'
  rw [h1]
  exact ⟨rfl, rfl, ⟨_, rfl⟩, h2.symm⟩

/-- Witness for C2: admin member with an empty password. -/
theorem add_member_missing_admin_fields_is_error_w :
    (add_member (fun _ => "HASH") 5 "g1" "g2"
      [("name", Value.str "Alice"), ("email", Value.str "a@b.c"),
       ("password", Value.str ""), ("isAdmin", Value.bool true)]
      Option.none Option.none ⟨⟨[], [], [], [], [], 0⟩, ⟨[]⟩⟩).2 =
      ⟨"error", "Admin user requires a name, email, and password."⟩ ∧
    (add_member (fun _ => "HASH") 5 "g1" "g2"
      [("name", Value.str "Alice"), ("email", Value.str "a@b.c"),
       ("password", Value.str ""), ("isAdmin", Value.bool true)]
      Option.none Option.none ⟨⟨[], [], [], [], [], 0⟩, ⟨[]⟩⟩).1.db.users = [] ∧
    (∃ m, (add_member (fun _ => "HASH") 5 "g1" "g2"
      [("name", Value.str "Alice"), ("email", Value.str "a@b.c"),
       ("password", Value.str ""), ("isAdmin", Value.bool true)]
      Option.none Option.none ⟨⟨[], [], [], [], [], 0⟩, ⟨[]⟩⟩).1.db.members =
      [] ++ [m]) ∧
    add_member (fun _ => "HASH") 5 "g1" "g2"
      [("name", Value.str "Alice"), ("email", Value.str "a@b.c"),
       ("password", Value.str ""), ("isAdmin", Value.bool true)]
      Option.none Option.none ⟨⟨[], [], [], [], [], 0⟩, ⟨[]⟩⟩ =
    add_member (fun s => valueStr s) 5 "g1" "g2"
      [("name", Value.str "Alice"), ("email", Value.str "a@b.c"),
       ("password", Value.str ""), ("isAdmin", Value.bool true)]
      Option.none Option.none ⟨⟨[], [], [], [], [], 0⟩, ⟨[]⟩⟩ :=
  add_member_missing_admin_fields_is_error (fun _ => "HASH") (fun s => valueStr s)
    5 "g1" "g2"
    [("name", Value.str "Alice"), ("email", Value.str "a@b.c"),
     ("password", Value.str ""), ("isAdmin", Value.bool true)]
    Option.none Option.none ⟨⟨[], [], [], [], [], 0⟩, ⟨[]⟩⟩
    (by decide) (by decide)

/-- C5: a request to a protected route with no resolvable current user
(no session email, or email lookup miss) makes `require_login` fail with
a 307 redirect whose target is `/login?next=<url-encoded original URL>`
(url-encoded with an empty safe set); when a user resolves,
`require_login` returns that user. -/
theorem require_login_redirects_or_returns_user
    (requestUrl : String) (sess : Session) (users : List Doc) :
    (sess.user_email = Option.none →
      get_current_user sess users = Option.none) ∧
    (get_current_user sess users = Option.none →
      require_login requestUrl sess users =
        .httpRedirect 307 ("/login?next=" ++ pyQuote [] requestUrl)) ∧
    (∀ u, get_current_user sess users = some u →
      require_login requestUrl sess users = .ok u) := by
  refine ⟨fun h => ?_, fun h => ?_, fun u h => ?_⟩
  · simp [get_current_user, h]
  · simp [require_login, h]
  · simp [require_login, h]

/-- Witness for C5 at a concrete unauthenticated request. -/
theorem require_login_redirects_or_returns_user_w :
    require_login "http://x/add-blog" {} [] =
      .httpRedirect 307 "/login?next=http%3A%2F%2Fx%2Fadd-blog" := by
  have h := (require_login_redirects_or_returns_user "http://x/add-blog" {} []).2.1 rfl
  exact h.trans (by decide)

/-- C7: `save_upload_file` returns `none` and writes nothing when the
file is absent or its filename is empty; otherwise it appends the full
byte content under `<content-dir>/<generated token + original extension>`
and returns `/<content-dir>/<that name>`. -/
theorem save_upload_file_behaviour
    (gen : String) (upload_file : Option UploadFile) (fs : FS) :
    (upload_file = Option.none →
      save_upload_file gen upload_file fs = (fs, Option.none)) ∧
    (∀ f, upload_file = some f → f.filename = "" →
      save_upload_file gen upload_file fs = (fs, Option.none)) ∧
    (∀ f, upload_file = some f → f.filename ≠ "" →
      save_upload_file gen upload_file fs =
        (⟨fs.files ++
            [(UPLOAD_DIR ++ "/" ++ (gen ++ (splitext f.filename).2), f.content)]⟩,
         some ("/" ++ UPLOAD_DIR ++ "/" ++ (gen ++ (splitext f.filename).2)))) := by
  refine ⟨fun h => ?_, fun f hf h => ?_, fun f hf h => ?_⟩
  · simp [save_upload_file, h]
  · simp [save_upload_file, hf, h]
  · simp [save_upload_file, hf, h]

/-- Witness for C7: saving a concrete `photo.png` of three bytes. -/
theorem save_upload_file_behaviour_w :
    save_upload_file "abc" (some ⟨"photo.png", [1, 2, 3]⟩) ⟨[]⟩ =
      (⟨[("uploads/abc.png", [1, 2, 3])]⟩, some "/uploads/abc.png") := by
  have h := (save_upload_file_behaviour "abc" (some ⟨"photo.png", [1, 2, 3]⟩) ⟨[]⟩).2.2
    ⟨"photo.png", [1, 2, 3]⟩ rfl (by decide)
  exact h.trans (by decide)

/-- C9: logout clears the session entirely (so `get_current_user` then
returns `none`), redirects to the home page with a 303, is idempotent,
and behaves identically whether or not a session was active. -/
theorem handle_logout_clears_session_and_is_idempotent
    (sess sess2 : Session) (users : List Doc) :
    (handle_logout sess).1 = { user_email := Option.none, user_name := Option.none } ∧
    (handle_logout sess).2 = ⟨303, "/"⟩ ∧
    get_current_user (handle_logout sess).1 users = Option.none ∧
    handle_logout (handle_logout sess).1 = handle_logout sess ∧
    handle_logout sess = handle_logout sess2 :=
  ⟨rfl, rfl, rfl, rfl, rfl⟩

/-- C4 counterexample: logging in with an email that matches no user and
return-to URL `/add-blog` redirects to the bare `/login?error=1` — the
return-to URL is NOT preserved (the location differs from the preserved
form the password-mismatch branch produces), though no session is
established. -/
theorem handle_login_unknown_email_drops_return_to :
    (handle_login (fun _ _ => false) "a@b.c" "pw" "/add-blog" {} []).2 =
      ⟨303, "/login?error=1"⟩ ∧
    (handle_login (fun _ _ => false) "a@b.c" "pw" "/add-blog" {} []).2.location ≠
      "/login?error=1" ++ "&next=" ++ pyQuote [47] "/add-blog" ∧
    (handle_login (fun _ _ => false) "a@b.c" "pw" "/add-blog" {} []).1 =
      { user_email := Option.none, user_name := Option.none } :=
  ⟨rfl, by decide, rfl⟩

/-- C4 amended: a failed login establishes no session (the session is
left untouched) and redirects 303 to `/login?error=1`; the return-to URL
is appended as `&next=<quote(next_url)>` only in the password-mismatch
branch and only when `next_url` is non-empty and starts with `/` — when
the email matches no user the return-to URL is dropped. -/
theorem handle_login_failure_behaviour (verify : Value → Value → Bool)
    (email password next_url : String) (sess : Session) (users : List Doc) :
    (get_user_by_email users email = Option.none →
      handle_login verify email password next_url sess users =
        (sess, ⟨303, "/login?error=1"⟩)) ∧
    (∀ user, get_user_by_email users email = some user →
      verify (.str password) ((docFind user "password").getD .none) = false →
      handle_login verify email password next_url sess users =
        (sess, ⟨303,
          if next_url != "" && startswith next_url "/" then
            "/login?error=1" ++ "&next=" ++ pyQuote [47] next_url
          else "/login?error=1"⟩)) := by
  constructor
  · intro h
    simp [handle_login, h]
  · intro user hu hv
    simp only [handle_login, hu, hv, Bool.false_eq_true, if_false]

/-- Witness for C4 (amended) at both concrete branches: an unknown email
drops the return-to, a wrong password preserves it. -/
theorem handle_login_failure_behaviour_w :
    handle_login (fun _ _ => false) "a@b.c" "pw" "/add-blog" {} [] =
      ({ user_email := Option.none, user_name := Option.none },
       ⟨303, "/login?error=1"⟩) ∧
    handle_login (fun _ _ => false) "a@b.c" "pw" "/add-blog" {}
        [[("email", Value.str "a@b.c"), ("password", Value.str "H"),
          ("name", Value.str "N")]] =
      ({ user_email := Option.none, user_name := Option.none },
       ⟨303, "/login?error=1&next=/add-blog"⟩) := by
  constructor
  · exact (handle_login_failure_behaviour (fun _ _ => false) "a@b.c" "pw" "/add-blog"
      {} []).1 rfl
  · have h := (handle_login_failure_behaviour (fun _ _ => false) "a@b.c" "pw" "/add-blog"
      {} [[("email", Value.str "a@b.c"), ("password", Value.str "H"),
           ("name", Value.str "N")]]).2
      [("email", Value.str "a@b.c"), ("password", Value.str "H"), ("name", Value.str "N")]
      (by decide) rfl
    exact h.trans (by decide)

/-- C6: a successful login binds the session to exactly the user's email
and display name, and the 303 redirect goes to the submitted return-to
URL iff it is non-empty and starts with `/`, else to the default landing
page `/add-project`. -/
theorem handle_login_success_behaviour (verify : Value → Value → Bool)
    (email password next_url : String) (sess : Session) (users : List Doc)
    (user : Doc)
    (hu : get_user_by_email users email = some user)
    (hv : verify (.str password) ((docFind user "password").getD .none) = true) :
    (handle_login verify email password next_url sess users).1 =
      { user_email := some ((docFind user "email").getD .none)
        user_name := some ((docFind user "name").getD .none) } ∧
    (handle_login verify email password next_url sess users).2.status_code = 303 ∧
    ((handle_login verify email password next_url sess users).2.location = next_url ↔
      (next_url ≠ "" ∧ startswith next_url "/" = true)) ∧
    (¬(next_url ≠ "" ∧ startswith next_url "/" = true) →
      (handle_login verify email password next_url sess users).2.location =
        "/add-project") := by
  cases hb : next_url != "" && startswith next_url "/" with
  | true =>
    have hp : next_url ≠ "" ∧ startswith next_url "/" = true := by
      have h' := hb
      simp only [Bool.and_eq_true, bne_iff_ne] at h'
      exact h'
    have hEq : handle_login verify email password next_url sess users =
        ({ user_email := some ((docFind user "email").getD .none)
           user_name := some ((docFind user "name").getD .none) },
         ⟨303, next_url⟩) := by
      simp [handle_login, hu, hv, hb]
    rw [hEq]
    exact ⟨rfl, rfl, ⟨fun _ => hp, fun _ => rfl⟩, fun hcon => absurd hp hcon⟩
  | false =>
    have hp : ¬(next_url ≠ "" ∧ startswith next_url "/" = true) := by
      intro hand
      have h' : (next_url != "" && startswith next_url "/") = true := by
        simp only [Bool.and_eq_true, bne_iff_ne]
        exact hand
      rw [hb] at h'
      exact Bool.false_ne_true h'
    have hEq : handle_login verify email password next_url sess users =
        ({ user_email := some ((docFind user "email").getD .none)
           user_name := some ((docFind user "name").getD .none) },
         ⟨303, "/add-project"⟩) := by
      simp [handle_login, hu, hv, hb]
    rw [hEq]
    refine ⟨rfl, rfl, ⟨fun he => ?_, fun hand => absurd hand hp⟩, fun _ => rfl⟩
    have he' : ("/add-project" : String) = next_url := he
    exfalso
    apply hp
    rw [← he']
    exact ⟨by decide, by decide⟩

/-- Witness for C6: concrete successful login with return-to `/x`. -/
theorem handle_login_success_behaviour_w :
    (handle_login (fun p h => p == Value.str "pw" && h == Value.str "H")
        "a@b.c" "pw" "/x" {}
        [[("email", Value.str "a@b.c"), ("password", Value.str "H"),
          ("name", Value.str "Alice")]]).1 =
      { user_email := some (.str "a@b.c"), user_name := some (.str "Alice") } ∧
    (handle_login (fun p h => p == Value.str "pw" && h == Value.str "H")
        "a@b.c" "pw" "/x" {}
        [[("email", Value.str "a@b.c"), ("password", Value.str "H"),
          ("name", Value.str "Alice")]]).2.location = "/x" := by
  have h := handle_login_success_behaviour
    (fun p h => p == Value.str "pw" && h == Value.str "H") "a@b.c" "pw" "/x" {}
    [[("email", Value.str "a@b.c"), ("password", Value.str "H"),
      ("name", Value.str "Alice")]]
    [("email", Value.str "a@b.c"), ("password", Value.str "H"),
     ("name", Value.str "Alice")]
    (by decide) (by decide)
  exact ⟨h.1.trans (by decide), h.2.2.1.mpr ⟨by decide, by decide⟩⟩

/-- C10: the Member document inserted by `add_member` never carries the
plaintext password or the admin flag — its keys are among name, role,
linkedin, github, email, createdAt, the optional photoUrl/resumeUrl, and
the store-assigned `_id` — and whenever a User document is created its
password field holds exactly the hasher's output, which differs from the
plaintext whenever the hash does. -/
theorem add_member_never_stores_plaintext_or_flag (hasher : Value → String)
    (now : Nat) (gp gr : String) (member_data : Doc) (pf rf : Option UploadFile)
    (w : World) :
    (∃ m, (add_member hasher now gp gr member_data pf rf w).1.db.members =
        w.db.members ++ [m] ∧
      docHasKey m "password" = false ∧
      docHasKey m "isAdmin" = false ∧
      ∀ k ∈ docKeys m, k ∈ ["name", "role", "linkedin", "github", "email",
        "createdAt", "photoUrl", "resumeUrl", "_id"]) ∧
    (∀ u, (add_member hasher now gp gr member_data pf rf w).1.db.users =
        w.db.users ++ [u] →
      docFind u "password" = some (.str (hasher
        ((docFind (docErase member_data "isAdmin") "password").getD .none))) ∧
      ∀ pw : String,
        (docFind (docErase member_data "isAdmin") "password").getD .none = .str pw →
        hasher (.str pw) ≠ pw →
        docFind u "password" ≠ some (.str pw)) := by
  constructor
  · refine ⟨docSet (member_doc_and_fs now gp gr member_data pf rf w.fs).2 "_id"
      (.oid w.db.nextId), ?_, ?_, ?_, ?_⟩
    · rw [add_member_members_eq]
      rfl
    · show (docFind _ "password").isSome = false
      rw [docFind_docSet_ne _ _ _ _ (by decide),
        member_doc_and_fs_find_ne _ _ _ _ _ _ _ _ (by decide) (by decide),
        member_core_doc_find_password]
      rfl
    · show (docFind _ "isAdmin").isSome = false
      rw [docFind_docSet_ne _ _ _ _ (by decide),
        member_doc_and_fs_find_ne _ _ _ _ _ _ _ _ (by decide) (by decide),
        member_core_doc_find_isAdmin]
      rfl
    · exact docKeys_docSet_subset _ "_id" _ _
        (fun k hk => by
          have := member_doc_and_fs_keys now gp gr member_data pf rf w.fs k hk
          simp only [List.mem_cons, List.not_mem_nil, or_false] at this ⊢
          tauto)
        (by decide)
  · intro u hu
    rcases add_member_users_cases hasher now gp gr member_data pf rf w with h | h
    · rw [h] at hu
      have hlen := congrArg List.length hu
      simp at hlen
    · rw [h] at hu
      have hu' : docSet (admin_user_doc hasher now (docErase member_data "isAdmin"))
          "_id" (.oid (w.db.nextId + 1)) = u := by
        have := List.append_cancel_left hu
        simpa using this
      have hfind : docFind u "password" = some (.str (hasher
          ((docFind (docErase member_data "isAdmin") "password").getD .none))) := by
        rw [← hu', docFind_docSet_ne _ _ _ _ (by decide)]
        rfl
      refine ⟨hfind, ?_⟩
      intro pw hpw hne hcontra
      rw [hfind, hpw] at hcontra
      simp only [Option.some.injEq, Value.str.injEq] at hcontra
      exact hne hcontra

/-- Witness for C10: the concrete User created for an admin member
stores the hash, not the plaintext `pw`. -/
theorem add_member_never_stores_plaintext_or_flag_w :
    docFind [("name", Value.str "Alice"), ("email", Value.str "a@b.c"),
      ("password", Value.str "HASH"), ("createdAt", Value.time 5),
      ("_id", Value.oid 1)] "password" = some (Value.str "HASH") ∧
    docFind [("name", Value.str "Alice"), ("email", Value.str "a@b.c"),
      ("password", Value.str "HASH"), ("createdAt", Value.time 5),
      ("_id", Value.oid 1)] "password" ≠ some (Value.str "pw") := by
  have h := (add_member_never_stores_plaintext_or_flag (fun _ => "HASH") 5 "g1" "g2"
    [("name", Value.str "Alice"), ("role", Value.str "lead"),
     ("linkedin", Value.str "l"), ("github", Value.str "g"),
     ("email", Value.str "a@b.c"), ("password", Value.str "pw"),
     ("isAdmin", Value.bool true)]
    Option.none Option.none ⟨⟨[], [], [], [], [], 0⟩, ⟨[]⟩⟩).2
    [("name", Value.str "Alice"), ("email", Value.str "a@b.c"),
     ("password", Value.str "HASH"), ("createdAt", Value.time 5),
     ("_id", Value.oid 1)]
    (by decide)
  exact ⟨h.1.trans (by decide), h.2 "pw" (by decide) (by decide)⟩

/-- C3 counterexample: `add_member` given a photo file object with an
EMPTY filename (i.e. no file uploaded) inserts a Member document whose
`photoUrl` field IS set — to null — contradicting "the corresponding URL
field is not set". -/
theorem add_member_empty_filename_sets_photoUrl :
    (add_member (fun _ => "HASH") 5 "g1" "g2"
      [("name", Value.str "A"), ("role", Value.str "r"), ("isAdmin", Value.bool false)]
      (some ⟨"", [9]⟩) Option.none ⟨⟨[], [], [], [], [], 0⟩, ⟨[]⟩⟩).1.db.members =
      [[("name", Value.str "A"), ("role", Value.str "r"), ("linkedin", Value.none),
        ("github", Value.none), ("email", Value.none), ("createdAt", Value.time 5),
        ("photoUrl", Value.none), ("_id", Value.oid 0)]] ∧
    docHasKey [("name", Value.str "A"), ("role", Value.str "r"),
      ("linkedin", Value.none), ("github", Value.none), ("email", Value.none),
      ("createdAt", Value.time 5), ("photoUrl", Value.none), ("_id", Value.oid 0)]
      "photoUrl" = true := by
  constructor
  · decide
  · decide

/-- C3 amended: for `add_project`, `add_gallery_item` and `add_blog`, no
file object or an empty filename leaves the URL field unset, and a file
with a non-empty filename stores a URL beginning with the content
directory's public prefix `/uploads/`. For `add_member` the same holds
when the file argument is absent or the filename is non-empty, but a
present file object with an EMPTY filename sets the photoUrl/resumeUrl
field to null on the inserted Member document. -/
theorem optional_file_url_fields (hasher : Value → String) (now : Nat)
    (gen gp gr : String) (data member_data : Doc) (file pf rf : Option UploadFile)
    (w : World) (hd : docFind data "imageUrl" = Option.none) :
    ((file = Option.none ∨ ∃ f, file = some f ∧ f.filename = "") →
      ∃ d, (add_project now gen data file w).1.db.projects = w.db.projects ++ [d] ∧
        docFind d "imageUrl" = Option.none) ∧
    (∀ f, file = some f → f.filename ≠ "" →
      ∃ d u, (add_project now gen data file w).1.db.projects = w.db.projects ++ [d] ∧
        docFind d "imageUrl" = some (.str u) ∧
        startswith u ("/" ++ UPLOAD_DIR ++ "/") = true) ∧
    ((file = Option.none ∨ ∃ f, file = some f ∧ f.filename = "") →
      ∃ d, (add_gallery_item now gen data file w).1.db.gallery = w.db.gallery ++ [d] ∧
        docFind d "imageUrl" = Option.none) ∧
    (∀ f, file = some f → f.filename ≠ "" →
      ∃ d u, (add_gallery_item now gen data file w).1.db.gallery = w.db.gallery ++ [d] ∧
        docFind d "imageUrl" = some (.str u) ∧
        startswith u ("/" ++ UPLOAD_DIR ++ "/") = true) ∧
    ((file = Option.none ∨ ∃ f, file = some f ∧ f.filename = "") →
      ∃ d, (add_blog now gen data file w).1.db.blogs = w.db.blogs ++ [d] ∧
        docFind d "imageUrl" = Option.none) ∧
    (∀ f, file = some f → f.filename ≠ "" →
      ∃ d u, (add_blog now gen data file w).1.db.blogs = w.db.blogs ++ [d] ∧
        docFind d "imageUrl" = some (.str u) ∧
        startswith u ("/" ++ UPLOAD_DIR ++ "/") = true) ∧
    (pf = Option.none →
      ∃ m, (add_member hasher now gp gr member_data pf rf w).1.db.members =
        w.db.members ++ [m] ∧ docFind m "photoUrl" = Option.none) ∧
    (∀ f, pf = some f → f.filename = "" →
      ∃ m, (add_member hasher now gp gr member_data pf rf w).1.db.members =
        w.db.members ++ [m] ∧ docFind m "photoUrl" = some Value.none) ∧
    (∀ f, pf = some f → f.filename ≠ "" →
      ∃ m u, (add_member hasher now gp gr member_data pf rf w).1.db.members =
        w.db.members ++ [m] ∧ docFind m "photoUrl" = some (.str u) ∧
        startswith u ("/" ++ UPLOAD_DIR ++ "/") = true) ∧
    (rf = Option.none →
      ∃ m, (add_member hasher now gp gr member_data pf rf w).1.db.members =
        w.db.members ++ [m] ∧ docFind m "resumeUrl" = Option.none) ∧
    (∀ f, rf = some f → f.filename = "" →
      ∃ m, (add_member hasher now gp gr member_data pf rf w).1.db.members =
        w.db.members ++ [m] ∧ docFind m "resumeUrl" = some Value.none) ∧
    (∀ f, rf = some f → f.filename ≠ "" →
      ∃ m u, (add_member hasher now gp gr member_data pf rf w).1.db.members =
        w.db.members ++ [m] ∧ docFind m "resumeUrl" = some (.str u) ∧
        startswith u ("/" ++ UPLOAD_DIR ++ "/") = true) := by
  have hsaveNone : (file = Option.none ∨ ∃ f, file = some f ∧ f.filename = "") →
      (save_upload_file gen file w.fs).2 = Option.none := by
    rintro (rfl | ⟨f, rfl, hf⟩)
    · rfl
    · exact save_upload_file_path_none gen f w.fs hf
  refine ⟨?_, ?_, ?_, ?_, ?_, ?_, ?_, ?_, ?_, ?_, ?_, ?_⟩
  · intro h
    refine ⟨_, add_project_projects_eq now gen data file w, ?_⟩
    rw [content_doc_imageUrl data now w.db.nextId _ hd, hsaveNone h]
  · rintro f rfl hf
    refine ⟨_, "/" ++ UPLOAD_DIR ++ "/" ++ (gen ++ (splitext f.filename).2),
      add_project_projects_eq now gen data (some f) w, ?_, ?_⟩
    · rw [content_doc_imageUrl data now w.db.nextId _ hd,
        save_upload_file_path_some gen f w.fs hf]
      exact if_neg (upload_url_ne_empty _)
    · exact startswith_append _ _
  · intro h
    refine ⟨_, add_gallery_item_gallery_eq now gen data file w, ?_⟩
    rw [content_doc_imageUrl data now w.db.nextId _ hd, hsaveNone h]
  · rintro f rfl hf
    refine ⟨_, "/" ++ UPLOAD_DIR ++ "/" ++ (gen ++ (splitext f.filename).2),
      add_gallery_item_gallery_eq now gen data (some f) w, ?_, ?_⟩
    · rw [content_doc_imageUrl data now w.db.nextId _ hd,
        save_upload_file_path_some gen f w.fs hf]
      exact if_neg (upload_url_ne_empty _)
    · exact startswith_append _ _
  · intro h
    refine ⟨_, add_blog_blogs_eq now gen data file w, ?_⟩
    rw [content_doc_imageUrl data now w.db.nextId _ hd, hsaveNone h]
  · rintro f rfl hf
    refine ⟨_, "/" ++ UPLOAD_DIR ++ "/" ++ (gen ++ (splitext f.filename).2),
      add_blog_blogs_eq now gen data (some f) w, ?_, ?_⟩
    · rw [content_doc_imageUrl data now w.db.nextId _ hd,
        save_upload_file_path_some gen f w.fs hf]
      exact if_neg (upload_url_ne_empty _)
    · exact startswith_append _ _
  · rintro rfl
    refine ⟨_, by rw [add_member_members_eq]; rfl, ?_⟩
    rw [docFind_docSet_ne _ _ _ _ (by decide), member_doc_photoUrl_no_file]
  · rintro f rfl hf
    refine ⟨_, by rw [add_member_members_eq]; rfl, ?_⟩
    rw [docFind_docSet_ne _ _ _ _ (by decide), member_doc_photoUrl_file,
      save_upload_file_path_none gp f w.fs hf]
    rfl
  · rintro f rfl hf
    refine ⟨_, "/" ++ UPLOAD_DIR ++ "/" ++ (gp ++ (splitext f.filename).2),
      by rw [add_member_members_eq]; rfl, ?_, ?_⟩
    · rw [docFind_docSet_ne _ _ _ _ (by decide), member_doc_photoUrl_file,
        save_upload_file_path_some gp f w.fs hf]
      rfl
    · exact startswith_append _ _
  · rintro rfl
    refine ⟨_, by rw [add_member_members_eq]; rfl, ?_⟩
    rw [docFind_docSet_ne _ _ _ _ (by decide), member_doc_resumeUrl_no_file]
  · rintro f rfl hf
    refine ⟨_, by rw [add_member_members_eq]; rfl, ?_⟩
    rw [docFind_docSet_ne _ _ _ _ (by decide), member_doc_resumeUrl_file,
      save_upload_file_path_none gr f _ hf]
    rfl
  · rintro f rfl hf
    refine ⟨_, "/" ++ UPLOAD_DIR ++ "/" ++ (gr ++ (splitext f.filename).2),
      by rw [add_member_members_eq]; rfl, ?_, ?_⟩
    · rw [docFind_docSet_ne _ _ _ _ (by decide), member_doc_resumeUrl_file,
        save_upload_file_path_some gr f _ hf]
      rfl
    · exact startswith_append _ _

/-- Witness for C3: a concrete project upload stores a `/uploads/`-rooted
URL, and a concrete member photo with empty filename yields a null
`photoUrl`. -/
theorem optional_file_url_fields_w :
    (∃ d u, (add_project 5 "g" [("title", Value.str "T")]
        (some ⟨"i.png", [7]⟩) ⟨⟨[], [], [], [], [], 0⟩, ⟨[]⟩⟩).1.db.projects =
        [] ++ [d] ∧ docFind d "imageUrl" = some (.str u) ∧
        startswith u ("/" ++ UPLOAD_DIR ++ "/") = true) ∧
    (∃ m, (add_member (fun _ => "HASH") 5 "g1" "g2" [("name", Value.str "A")]
        (some ⟨"", [9]⟩) Option.none ⟨⟨[], [], [], [], [], 0⟩, ⟨[]⟩⟩).1.db.members =
        [] ++ [m] ∧ docFind m "photoUrl" = some Value.none) := by
  obtain ⟨-, p2, -, -, -, -, -, -, -, -, -, -⟩ :=
    optional_file_url_fields (fun _ => "HASH") 5 "g" "g1" "g2"
      [("title", Value.str "T")] [("name", Value.str "A")]
      (some ⟨"i.png", [7]⟩) Option.none Option.none
      ⟨⟨[], [], [], [], [], 0⟩, ⟨[]⟩⟩ (by decide)
  obtain ⟨-, -, -, -, -, -, -, m2, -, -, -, -⟩ :=
    optional_file_url_fields (fun _ => "HASH") 5 "g" "g1" "g2"
      [("title", Value.str "T")] [("name", Value.str "A")]
      Option.none (some ⟨"", [9]⟩) Option.none
      ⟨⟨[], [], [], [], [], 0⟩, ⟨[]⟩⟩ (by decide)
  exact ⟨p2 ⟨"i.png", [7]⟩ rfl (by decide), m2 ⟨"", [9]⟩ rfl rfl⟩

/-- C8: every document returned by a read operation (the five `get_all`s
and `get_user_by_email`) has the internal `_id` removed and replaced by
a string `id` holding its string form (given that stored documents carry
an `_id` and duplicate-free keys, as the store guarantees); and `add`
followed by `get_all` yields the new item with a string `id` and no
`_id`. -/
theorem reads_expose_string_id (db : DB) (users : List Doc) (email : String)
    (hP : ∀ d ∈ db.projects, (∃ v, docFind d "_id" = some v) ∧ (docKeys d).Nodup)
    (hM : ∀ d ∈ db.members, (∃ v, docFind d "_id" = some v) ∧ (docKeys d).Nodup)
    (hUs : ∀ d ∈ db.users, (∃ v, docFind d "_id" = some v) ∧ (docKeys d).Nodup)
    (hG : ∀ d ∈ db.gallery, (∃ v, docFind d "_id" = some v) ∧ (docKeys d).Nodup)
    (hB : ∀ d ∈ db.blogs, (∃ v, docFind d "_id" = some v) ∧ (docKeys d).Nodup)
    (hU : ∀ d ∈ users, (∃ v, docFind d "_id" = some v) ∧ (docKeys d).Nodup) :
    (∀ d' ∈ get_all_projects db, docFind d' "_id" = Option.none ∧
      ∃ s, docFind d' "id" = some (.str s)) ∧
    (∀ d' ∈ get_all_members db, docFind d' "_id" = Option.none ∧
      ∃ s, docFind d' "id" = some (.str s)) ∧
    (∀ d' ∈ get_all_users db, docFind d' "_id" = Option.none ∧
      ∃ s, docFind d' "id" = some (.str s)) ∧
    (∀ d' ∈ get_all_gallery_items db, docFind d' "_id" = Option.none ∧
      ∃ s, docFind d' "id" = some (.str s)) ∧
    (∀ d' ∈ get_all_blogs db, docFind d' "_id" = Option.none ∧
      ∃ s, docFind d' "id" = some (.str s)) ∧
    (∀ u, get_user_by_email users email = some u →
      docFind u "_id" = Option.none ∧ ∃ s, docFind u "id" = some (.str s)) ∧
    (∀ (now : Nat) (gen : String) (pd : Doc) (file : Option UploadFile) (w : World),
      (docKeys pd).Nodup →
      ∃ d', (get_all_projects (add_project now gen pd file w).1.db).getLast? =
          some d' ∧
        docFind d' "_id" = Option.none ∧
        docFind d' "id" = some (.str (valueStr (.oid w.db.nextId)))) := by
  refine ⟨serialized_list_ids _ hP, serialized_list_ids _ hM,
    serialized_list_ids _ hUs, serialized_list_ids _ hG,
    serialized_list_ids _ hB, ?_, ?_⟩
  · intro u hu
    simp only [get_user_by_email, get_user_by_email_v] at hu
    cases hc : List.find? (fun d => docFind d "email" == some (.str email)) users with
    | none =>
      rw [hc] at hu
      simp at hu
    | some raw =>
      rw [hc] at hu
      simp only [Option.some.injEq] at hu
      subst hu
      have hraw := List.mem_of_find?_eq_some hc
      rcases hU raw hraw with ⟨⟨v, hv⟩, hnd⟩
      rcases mongo_id_serializer_spec raw v hv hnd with ⟨h1, h2⟩
      exact ⟨h1, valueStr v, h2⟩
  · intro now gen pd file w hnd
    have hfindid : docFind (docSet (docSet (setUrlIfTruthy pd "imageUrl"
        (save_upload_file gen file w.fs).2) "createdAt" (.time now)) "_id"
        (.oid w.db.nextId)) "_id" = some (.oid w.db.nextId) :=
      docFind_docSet_self _ _ _
    have hnd2 : (docKeys (docSet (docSet (setUrlIfTruthy pd "imageUrl"
        (save_upload_file gen file w.fs).2) "createdAt" (.time now)) "_id"
        (.oid w.db.nextId))).Nodup :=
      docKeys_docSet_nodup _ "_id" _ (docKeys_docSet_nodup _ "createdAt" _
        (setUrlIfTruthy_nodup pd "imageUrl" _ hnd))
    rcases mongo_id_serializer_spec _ _ hfindid hnd2 with ⟨h1, h2⟩
    refine ⟨_, ?_, h1, h2⟩
    show ((add_project now gen pd file w).1.db.projects.map
      mongo_id_serializer).getLast? = _
    rw [add_project_projects_eq, List.map_append, List.map_singleton]
    exact List.getLast?_concat _

/-- Witness for C8: the serialized form of a concrete stored project. -/
theorem reads_expose_string_id_w :
    docFind [("title", Value.str "T"), ("id", Value.str "7")] "_id" =
      Option.none ∧
    ∃ s, docFind [("title", Value.str "T"), ("id", Value.str "7")] "id" =
      some (Value.str s) := by
  have h := (reads_expose_string_id
      ⟨[[("title", Value.str "T"), ("_id", Value.oid 7)]], [], [], [], [], 8⟩ [] "x"
      (by
        intro d hd
        simp only [List.mem_singleton] at hd
        subst hd
        exact ⟨⟨Value.oid 7, rfl⟩, by decide⟩)
      (by intro d hd; simp at hd) (by intro d hd; simp at hd)
      (by intro d hd; simp at hd) (by intro d hd; simp at hd)
      (by intro d hd; simp at hd)).1
    [("title", Value.str "T"), ("id", Value.str "7")] (by decide)
  exact h

end Hivemind
